import Mathlib

/-!
# Verification of the GXAI-Bench `ShapeGraph` dataset and explainer contracts

This file shallowly embeds the parts of the GXAI-Bench repository that its
specification makes claims about:

* `graphxai/datasets/shape_graph.py` — the `ShapeGraph` dataset constructor,
  its verified-rebuild loop, the feature generation with the sensitive-feature
  shuffle, the train/test/valid split masks, and the ground-truth
  `explanation_generator`;
* `graphxai/explainers/random.py` — the `RandomExplainer` baseline;
* `graphxai/explainers/gnn_explainer.py` — the `GNNExplainer` method.

Machine floats only carry opaque random values in the claims treated here, so
feature entries are embedded as integers; tensors become lists; Python
exceptions become `Except`/`Option` results.
-/

namespace GXAI

/-! ## Host graphs and k-hop subgraphs -/

/-- A host graph as produced by the `build_bound_graph` builders and carried by
`ShapeGraph` as `self.G`: nodes are `0, …, numNodes - 1`, `edges` is the
networkx edge list `G.edges` (one direction per undirected edge) and `shape`
is each node's `'shape'` attribute (`0` = not in a motif, nonzero = id of the
motif instance containing the node). -/
structure HostGraph where
  numNodes : Nat
  edges : List (Nat × Nat)
  shape : Nat → Nat

/-- Lexicographic order on directed edges, used by `coalesce` inside
`torch_geometric.utils.to_undirected` to sort the symmetrized edge list. -/
def edgeLe (a b : Nat × Nat) : Prop :=
  a.1 < b.1 ∨ (a.1 = b.1 ∧ a.2 ≤ b.2)

instance : DecidableRel edgeLe := fun a b => by
  unfold edgeLe; infer_instance

/-- `torch_geometric.utils.to_undirected`: append the reversed copy of every
directed edge, then coalesce (drop duplicates and sort). -/
def toUndirected (edges : List (Nat × Nat)) : List (Nat × Nat) :=
  ((edges ++ edges.map (fun e => (e.2, e.1))).dedup).insertionSort edgeLe

/-- Out-neighbours of `u` in a directed edge list.  On a symmetrized
(`toUndirected`) list this is the undirected neighbourhood, which is also the
networkx adjacency of the graph the list came from. -/
def nbrs (ei : List (Nat × Nat)) (u : Nat) : List Nat :=
  (ei.filter (fun e => e.1 == u)).map Prod.snd

/-- One breadth-first expansion step: keep the current frontier set and add
every out-neighbour of it. -/
def khopStep (ei : List (Nat × Nat)) (s : List Nat) : List Nat :=
  (s ++ s.flatMap (nbrs ei)).dedup

/-- Modelled from the spec: `graphxai.utils.nx_conversion.khop_subgraph_nx`
(not part of the provided sources) returns, per the spec's glossary, "all
nodes reachable from a target node within k edge-traversals".  We model it as
`k` breadth-first expansions from `v` over the edge list `ei`. -/
def khopNodes (ei : List (Nat × Nat)) (v : Nat) : Nat → List Nat
  | 0 => [v]
  | k + 1 => khopStep ei (khopNodes ei v k)

/-- The part of the 4-tuple returned by `torch_geometric.utils.k_hop_subgraph`
that the claims mention: `subset` (`khop_info[0]`, the nodes of the k-hop
subgraph, sorted and unique as produced by `torch.unique`) and the filtered
edge index (`khop_info[1]`, the columns of `edge_index` with both endpoints in
`subset`). -/
structure KhopInfo where
  subset : List Nat
  subEdgeIndex : List (Nat × Nat)
  deriving DecidableEq

/-- `torch_geometric.utils.k_hop_subgraph` (external library, modelled from
its documented behaviour): starting from `node_idx`, hop `num_hops` times
along the (symmetric) `edge_index`, return the sorted unique node subset and
the edge columns with both endpoints inside it. -/
def kHopSubgraph (nodeIdx numHops : Nat) (ei : List (Nat × Nat)) : KhopInfo :=
  let subset := ((khopNodes ei nodeIdx numHops).dedup).insertionSort (· ≤ ·)
  { subset := subset
    subEdgeIndex := ei.filter (fun e => decide (e.1 ∈ subset) && decide (e.2 ∈ subset)) }

/-! ## Ground-truth explanations (`ShapeGraph.explanation_generator`) -/

/-- A ground-truth `Explanation` object (`graphxai.Explanation`, modelled from
the spec's data model §3: `feature_imp`, `node_imp`, `edge_imp`, plus the
query node and the enclosing k-hop subgraph set by
`set_enclosing_subgraph(khop_info)`).  `node_imp` is the 0/1 double tensor
kept as booleans; `edge_imp` keeps the 0/1 values as naturals. -/
structure Explanation where
  feature_imp : List Int
  node_imp : List Bool
  edge_imp : List Nat
  node_idx : Nat
  enc_subgraph : KhopInfo
  deriving DecidableEq

/-- The set `original_in_num_hop` of `explanation_generator`: the nonzero
`'shape'` tags appearing in the 1-hop neighbourhood of the query node. -/
def originalInNumHop (G : HostGraph) (nodeIdx : Nat) : List Nat :=
  ((khopNodes (toUndirected G.edges) nodeIdx 1).map G.shape).filter (fun s => s != 0)

/-- The value stored in `node_imp_map` for node `i`: whether `i`'s `'shape'`
tag occurs among the nonzero tags of the query node's 1-hop neighbourhood. -/
def impTag (G : HostGraph) (nodeIdx i : Nat) : Bool :=
  decide (G.shape i ∈ originalInNumHop G nodeIdx)

/-- The edge-importance value assigned by the loop body of
`explanation_generator`: `1` when both endpoints lie in `in_motif`;
otherwise `1` when at least one endpoint lies in `in_motif`, one endpoint is
the query node, and the query node itself is not in `in_motif`; else `0`. -/
def edgeImpVal (inMotif : List Nat) (nodeIdx : Nat) (e : Nat × Nat) : Nat :=
  if e.1 ∈ inMotif ∧ e.2 ∈ inMotif then 1
  else if ((e.1 ∈ inMotif ∨ e.2 ∈ inMotif) ∧ (e.1 = nodeIdx ∨ e.2 = nodeIdx))
      ∧ ¬ nodeIdx ∈ inMotif then 1
  else 0

/-- `ShapeGraph.explanation_generator(node_idx)`.  `featureImpTrue` is the
dataset-level `self.feature_imp_true`; `modelLayers` is `self.model_layers`.
The Python dict lookup `node_imp_map[i.item()]` can in principle raise
`KeyError`, so the embedding threads it through `Option` via `mapM`. -/
def explanationGenerator (G : HostGraph) (featureImpTrue : List Int)
    (modelLayers nodeIdx : Nat) : Option Explanation :=
  let ei := toUndirected G.edges
  let khopNx := khopNodes ei nodeIdx modelLayers
  let nodeImpMap := khopNx.map (fun i => (i, impTag G nodeIdx i))
  let khopInfo := kHopSubgraph nodeIdx modelLayers ei
  match khopInfo.subset.mapM (fun i => nodeImpMap.lookup i) with
  | none => none
  | some nodeImp =>
      let inMotif := ((khopInfo.subset.zip nodeImp).filter (fun p => p.2)).map Prod.fst
      let edgeImp := khopInfo.subEdgeIndex.map (edgeImpVal inMotif nodeIdx)
      some { feature_imp := featureImpTrue
             node_imp := nodeImp
             edge_imp := edgeImp
             node_idx := nodeIdx
             enc_subgraph := khopInfo }

/-! ## Structural lemmas about the k-hop machinery -/

lemma lookup_map_self {α : Type} (f : Nat → α) :
    ∀ (l : List Nat) (x : Nat), x ∈ l →
      (l.map (fun i => (i, f i))).lookup x = some (f x)
  | [], x, hx => by simp at hx
  | a :: l, x, hx => by
    by_cases hxa : x = a
    · subst hxa; simp [List.lookup]
    · have hb : (x == a) = false := beq_eq_false_iff_ne.mpr hxa
      have h' : x ∈ l := by
        rcases List.mem_cons.mp hx with h | h
        · exact absurd h hxa
        · exact h
      simp [List.lookup, hb, lookup_map_self f l x h']

lemma mapM_eq_some_map {α β : Type} (g : α → Option β) (f : α → β) :
    ∀ (l : List α), (∀ x ∈ l, g x = some (f x)) → l.mapM g = some (l.map f)
  | [], _ => rfl
  | a :: l, h => by
    have ha : g a = some (f a) := h a (by simp)
    have hl : l.mapM g = some (l.map f) :=
      mapM_eq_some_map g f l (fun x hx => h x (by simp [hx]))
    rw [List.mapM_cons, ha, hl]; rfl

lemma mem_khopStep_of_mem {ei : List (Nat × Nat)} {s : List Nat} {x : Nat}
    (h : x ∈ s) : x ∈ khopStep ei s := by
  unfold khopStep
  rw [List.mem_dedup]
  exact List.mem_append_left _ h

lemma self_mem_khopNodes (ei : List (Nat × Nat)) (v : Nat) :
    ∀ k, v ∈ khopNodes ei v k
  | 0 => by simp [khopNodes]
  | k + 1 => mem_khopStep_of_mem (self_mem_khopNodes ei v k)

lemma mem_kHopSubgraph_subset {v k : Nat} {ei : List (Nat × Nat)} {x : Nat} :
    x ∈ (kHopSubgraph v k ei).subset ↔ x ∈ khopNodes ei v k := by
  unfold kHopSubgraph
  rw [(List.perm_insertionSort _ _).mem_iff, List.mem_dedup]

lemma mem_subEdgeIndex {v k : Nat} {ei : List (Nat × Nat)} {e : Nat × Nat}
    (h : e ∈ (kHopSubgraph v k ei).subEdgeIndex) :
    e.1 ∈ (kHopSubgraph v k ei).subset ∧ e.2 ∈ (kHopSubgraph v k ei).subset := by
  unfold kHopSubgraph at h ⊢
  rcases List.mem_filter.mp h with ⟨-, hcond⟩
  simp only [Bool.and_eq_true, decide_eq_true_eq] at hcond
  exact hcond

lemma zip_map_filter_fst {α : Type} (f : α → Bool) (l : List α) :
    (((l.zip (l.map f)).filter (fun p => p.2)).map Prod.fst) = l.filter f := by
  induction l with
  | nil => rfl
  | cons a l ih =>
    by_cases ha : f a
    · simpa [List.filter_cons, ha] using ih
    · simpa [List.filter_cons, ha] using ih

/-- Closed form of `explanation_generator`: the dict lookups always succeed
(the PyTorch-side k-hop node set is exactly the networkx-side one), `node_imp`
tags each subset node by `impTag`, and `edge_imp` is the edge rule applied
with `in_motif` = the tagged subset nodes. -/
theorem explanationGenerator_eq (G : HostGraph) (fit : List Int) (L v : Nat) :
    explanationGenerator G fit L v =
      some { feature_imp := fit
             node_imp := (kHopSubgraph v L (toUndirected G.edges)).subset.map (impTag G v)
             edge_imp := (kHopSubgraph v L (toUndirected G.edges)).subEdgeIndex.map
               (edgeImpVal
                 ((kHopSubgraph v L (toUndirected G.edges)).subset.filter (impTag G v)) v)
             node_idx := v
             enc_subgraph := kHopSubgraph v L (toUndirected G.edges) } := by
  have hlk : ∀ x ∈ (kHopSubgraph v L (toUndirected G.edges)).subset,
      ((khopNodes (toUndirected G.edges) v L).map (fun i => (i, impTag G v i))).lookup x
        = some (impTag G v x) := by
    intro x hx
    exact lookup_map_self _ _ _ (mem_kHopSubgraph_subset.mp hx)
  have hm : (kHopSubgraph v L (toUndirected G.edges)).subset.mapM
      (fun i => ((khopNodes (toUndirected G.edges) v L).map
        (fun i => (i, impTag G v i))).lookup i)
      = some ((kHopSubgraph v L (toUndirected G.edges)).subset.map (impTag G v)) :=
    mapM_eq_some_map _ _ _ hlk
  unfold explanationGenerator
  simp only [hm]
  rw [zip_map_filter_fst]

/-- C1: for every node, `explanation_generator` returns an explanation (no
`KeyError`) whose `node_imp` has one entry per node of the `model_layers`-hop
subgraph returned by `k_hop_subgraph`, and whose `edge_imp` has one entry per
edge of that subgraph. -/
theorem c1_explanation_dimensions (G : HostGraph) (fit : List Int) (L v : Nat) :
    ∃ exp, explanationGenerator G fit L v = some exp ∧
      exp.node_imp.length = (kHopSubgraph v L (toUndirected G.edges)).subset.length ∧
      exp.edge_imp.length = (kHopSubgraph v L (toUndirected G.edges)).subEdgeIndex.length := by
  refine ⟨_, explanationGenerator_eq G fit L v, ?_, ?_⟩ <;> simp

/-! ## The edge-importance rule (claim C8) -/

/-- A node counts as importance-tagged in an explanation when the alignment
of the k-hop node subset with `node_imp` pairs it with `true`. -/
def Explanation.tagged (exp : Explanation) (i : Nat) : Prop :=
  (i, true) ∈ exp.enc_subgraph.subset.zip exp.node_imp

lemma mem_zip_map {α β : Type} (f : α → β) (l : List α) (a : α) (b : β) :
    (a, b) ∈ l.zip (l.map f) ↔ a ∈ l ∧ f a = b := by
  induction l with
  | nil => simp
  | cons c l ih =>
    simp only [List.map_cons, List.zip_cons_cons, List.mem_cons, Prod.mk.injEq, ih]
    constructor
    · rintro (⟨rfl, rfl⟩ | ⟨h1, h2⟩)
      · exact ⟨Or.inl rfl, rfl⟩
      · exact ⟨Or.inr h1, h2⟩
    · rintro ⟨(rfl | h1), rfl⟩
      · exact Or.inl ⟨rfl, rfl⟩
      · exact Or.inr ⟨h1, rfl⟩

lemma edgeImpVal_cases (inMotif : List Nat) (nodeIdx : Nat) (e : Nat × Nat) :
    edgeImpVal inMotif nodeIdx e = 0 ∨ edgeImpVal inMotif nodeIdx e = 1 := by
  unfold edgeImpVal
  split
  · exact Or.inr rfl
  · split
    · exact Or.inr rfl
    · exact Or.inl rfl

lemma edgeImpVal_eq_one_iff (inMotif : List Nat) (nodeIdx : Nat) (e : Nat × Nat) :
    edgeImpVal inMotif nodeIdx e = 1 ↔
      ((e.1 ∈ inMotif ∧ e.2 ∈ inMotif) ∨
        ((e.1 = nodeIdx ∨ e.2 = nodeIdx) ∧
          ((e.1 ∈ inMotif ∧ ¬ e.2 ∈ inMotif) ∨ (¬ e.1 ∈ inMotif ∧ e.2 ∈ inMotif)) ∧
          ¬ nodeIdx ∈ inMotif)) := by
  unfold edgeImpVal
  by_cases h1 : e.1 ∈ inMotif ∧ e.2 ∈ inMotif
  · rw [if_pos h1]
    simp only [true_iff]
    exact Or.inl h1
  · rw [if_neg h1]
    by_cases h2 : ((e.1 ∈ inMotif ∨ e.2 ∈ inMotif) ∧ (e.1 = nodeIdx ∨ e.2 = nodeIdx))
        ∧ ¬ nodeIdx ∈ inMotif
    · rw [if_pos h2]
      simp only [true_iff]
      tauto
    · rw [if_neg h2]
      constructor
      · intro h; exact absurd h (by decide)
      · intro h; exact absurd (by tauto) h2

/-- C8: in a ground-truth explanation, an edge of the k-hop subgraph has
`edge_imp = 1` exactly when both endpoints are importance-tagged, or when the
edge touches the query node, exactly one endpoint is importance-tagged and the
query node itself is not; every other edge has `edge_imp = 0`. -/
theorem c8_edge_importance_rule (G : HostGraph) (fit : List Int) (L v : Nat)
    (exp : Explanation) (hexp : explanationGenerator G fit L v = some exp)
    (j : Nat) (hj : j < exp.edge_imp.length) :
    (exp.edge_imp.getD j 0 = 0 ∨ exp.edge_imp.getD j 0 = 1) ∧
    (exp.edge_imp.getD j 0 = 1 ↔
      ((exp.tagged (exp.enc_subgraph.subEdgeIndex.getD j (0, 0)).1 ∧
          exp.tagged (exp.enc_subgraph.subEdgeIndex.getD j (0, 0)).2) ∨
        (((exp.enc_subgraph.subEdgeIndex.getD j (0, 0)).1 = exp.node_idx ∨
            (exp.enc_subgraph.subEdgeIndex.getD j (0, 0)).2 = exp.node_idx) ∧
          ((exp.tagged (exp.enc_subgraph.subEdgeIndex.getD j (0, 0)).1 ∧
              ¬ exp.tagged (exp.enc_subgraph.subEdgeIndex.getD j (0, 0)).2) ∨
            (¬ exp.tagged (exp.enc_subgraph.subEdgeIndex.getD j (0, 0)).1 ∧
              exp.tagged (exp.enc_subgraph.subEdgeIndex.getD j (0, 0)).2)) ∧
          ¬ exp.tagged exp.node_idx))) := by
  rw [explanationGenerator_eq] at hexp
  have hE := Option.some.inj hexp
  subst hE
  simp only at hj ⊢
  set ei := toUndirected G.edges with hei
  set subset := (kHopSubgraph v L ei).subset with hsubset
  set subE := (kHopSubgraph v L ei).subEdgeIndex with hsubE
  set f := impTag G v with hf
  have hj' : j < subE.length := by
    simpa using hj
  have hgetD : (subE.map (edgeImpVal (subset.filter f) v)).getD j 0
      = edgeImpVal (subset.filter f) v (subE.getD j (0, 0)) := by
    rw [List.getD_eq_getElem _ _ (by simpa using hj), List.getElem_map,
      List.getD_eq_getElem _ _ hj']
  have he : subE.getD j (0, 0) ∈ subE := by
    rw [List.getD_eq_getElem _ _ hj']
    exact List.getElem_mem hj'
  obtain ⟨he1, he2⟩ := mem_subEdgeIndex he
  have hv : v ∈ subset := mem_kHopSubgraph_subset.mpr (self_mem_khopNodes ei v L)
  have htag : ∀ x : Nat, x ∈ subset →
      (((x, true) ∈ subset.zip (subset.map f)) ↔ f x = true) := by
    intro x hx
    rw [mem_zip_map]
    simp [hx]
  have hmemf : ∀ x : Nat, x ∈ subset → ((x ∈ subset.filter f) ↔ f x = true) := by
    intro x hx
    rw [List.mem_filter]
    simp [hx]
  constructor
  · rw [hgetD]
    exact edgeImpVal_cases _ _ _
  · rw [hgetD, edgeImpVal_eq_one_iff]
    simp only [Explanation.tagged]
    rw [hmemf _ he1, hmemf _ he2, hmemf _ hv, htag _ he1, htag _ he2, htag _ hv]

/-- A concrete host graph for evaluating the theorems: the path 0-1-2-3 whose
nodes 2 and 3 carry motif tag 1. -/
def pathMotifGraph : HostGraph :=
  { numNodes := 4, edges := [(0, 1), (1, 2), (2, 3)], shape := fun n => [0, 0, 1, 1].getD n 0 }

/-- The ground-truth explanation `explanation_generator` produces on
`pathMotifGraph` for query node 1 with 2 model layers. -/
def pathMotifExp : Explanation :=
  { feature_imp := [5]
    node_imp := [false, false, true, true]
    edge_imp := [0, 0, 1, 1, 1, 1]
    node_idx := 1
    enc_subgraph := { subset := [0, 1, 2, 3]
                      subEdgeIndex := [(0, 1), (1, 0), (1, 2), (2, 1), (2, 3), (3, 2)] } }

/-- Witness for C8 at the concrete graph `pathMotifGraph`, query node 1,
edge position 2 (the edge `(1, 2)` joining the untagged query node to the
tagged motif). -/
theorem c8_edge_importance_rule_witness :
    (pathMotifExp.edge_imp.getD 2 0 = 0 ∨ pathMotifExp.edge_imp.getD 2 0 = 1) ∧
    (pathMotifExp.edge_imp.getD 2 0 = 1 ↔
      ((pathMotifExp.tagged (pathMotifExp.enc_subgraph.subEdgeIndex.getD 2 (0, 0)).1 ∧
          pathMotifExp.tagged (pathMotifExp.enc_subgraph.subEdgeIndex.getD 2 (0, 0)).2) ∨
        (((pathMotifExp.enc_subgraph.subEdgeIndex.getD 2 (0, 0)).1 = pathMotifExp.node_idx ∨
            (pathMotifExp.enc_subgraph.subEdgeIndex.getD 2 (0, 0)).2 = pathMotifExp.node_idx) ∧
          ((pathMotifExp.tagged (pathMotifExp.enc_subgraph.subEdgeIndex.getD 2 (0, 0)).1 ∧
              ¬ pathMotifExp.tagged (pathMotifExp.enc_subgraph.subEdgeIndex.getD 2 (0, 0)).2) ∨
            (¬ pathMotifExp.tagged (pathMotifExp.enc_subgraph.subEdgeIndex.getD 2 (0, 0)).1 ∧
              pathMotifExp.tagged (pathMotifExp.enc_subgraph.subEdgeIndex.getD 2 (0, 0)).2)) ∧
          ¬ pathMotifExp.tagged pathMotifExp.node_idx))) :=
  c8_edge_importance_rule pathMotifGraph [5] 2 1 pathMotifExp (by decide) 2 (by decide)

/-! ## The sensitive-feature shuffle (`generate_shape_graph`, claim C5)

The `add_sensitive_feature` branch of `generate_shape_graph` draws a random
binary column, appends it to `x`, appends a zero weight to
`feature_imp_true`, draws `shuffle_ind = torch.randperm(x.shape[1])` and then
performs the in-place scatter assignments `x[:, shuffle_ind] = x.clone()` and
`feature_imp_true[shuffle_ind] = feature_imp_true.clone()`, finally storing
`self.sensitive_feature = shuffle_ind[-1].item()`. -/

/-- The torch advanced-indexing assignment `base[idx] = src` on one axis:
positions are written in index order (`base.set (idx[j]) (src[j])` for
successive `j`), so a later write to a duplicated index wins, and an index
pair beyond either list's length writes nothing. -/
def scatterAssign {α : Type} (idx : List Nat) (src base : List α) : List α :=
  (idx.zip src).foldl (fun acc q => acc.set q.1 q.2) base

lemma foldl_set_getElem?_of_not_mem {α : Type} :
    ∀ (ps : List (Nat × α)) (base : List α) (pos : Nat),
      (∀ q ∈ ps, q.1 ≠ pos) →
      (ps.foldl (fun acc q => acc.set q.1 q.2) base)[pos]? = base[pos]?
  | [], _, _, _ => rfl
  | q :: ps, base, pos, h => by
    rw [List.foldl_cons,
      foldl_set_getElem?_of_not_mem ps _ pos (fun q' hq' => h q' (List.mem_cons_of_mem _ hq')),
      List.getElem?_set_ne (h q (List.mem_cons_self q ps))]

lemma foldl_set_getElem? {α : Type} :
    ∀ (ps : List (Nat × α)) (base : List α) (p : Nat × α),
      ((ps.map Prod.fst).Nodup) → p ∈ ps → p.1 < base.length →
      (ps.foldl (fun acc q => acc.set q.1 q.2) base)[p.1]? = some p.2
  | [], _, p, _, hp, _ => absurd hp (List.not_mem_nil p)
  | q :: ps, base, p, hnd, hp, hlt => by
    rw [List.map_cons, List.nodup_cons] at hnd
    rw [List.foldl_cons]
    rcases List.mem_cons.mp hp with heq | hp'
    · subst heq
      have hnot : ∀ q' ∈ ps, q'.1 ≠ p.1 := by
        intro q' hq' h
        exact hnd.1 (h ▸ List.mem_map_of_mem Prod.fst hq')
      rw [foldl_set_getElem?_of_not_mem ps _ p.1 hnot, List.getElem?_set_self hlt]
    · exact foldl_set_getElem? ps _ p hnd.2 hp' (by rw [List.length_set]; exact hlt)

/-- Scattering by a duplicate-free index list puts `src[j]` at position
`idx[j]`. -/
lemma scatterAssign_getD {α : Type} (idx : List Nat) (src base : List α) (dflt : α)
    (hnd : idx.Nodup) (hlen : idx.length = src.length) (j : Nat)
    (hj : j < idx.length) (hblt : idx.getD j 0 < base.length) :
    (scatterAssign idx src base).getD (idx.getD j 0) dflt = src.getD j dflt := by
  have hjs : j < src.length := hlen ▸ hj
  have hjz : j < (idx.zip src).length := by
    rw [List.length_zip]; omega
  have hmem : (idx.getD j 0, src.getD j dflt) ∈ idx.zip src := by
    rw [List.getD_eq_getElem _ _ hj, List.getD_eq_getElem _ _ hjs]
    have h : (idx.zip src)[j] = (idx[j], src[j]) := List.getElem_zip
    exact h ▸ List.getElem_mem hjz
  have hfst : ((idx.zip src).map Prod.fst).Nodup := by
    rw [List.map_fst_zip idx src (le_of_eq hlen)]
    exact hnd
  have hkey := foldl_set_getElem? (idx.zip src) base (idx.getD j 0, src.getD j dflt)
    hfst hmem hblt
  unfold scatterAssign
  rw [List.getD_eq_getElem?_getD, hkey]
  rfl

/-- The outcome of the `add_sensitive_feature` branch: the shuffled feature
matrix, the shuffled importance vector, and the stored sensitive index. -/
structure SensShuffleResult where
  x : List (List Int)
  feature_imp_true : List Int
  sensitive_feature : Nat
  deriving DecidableEq

/-- `torch.cat([x, sensitive.unsqueeze(1)], dim=1)`: append the sensitive
entry to each feature row. -/
def appendSensitive (x : List (List Int)) (sensitive : List Int) : List (List Int) :=
  (x.zip sensitive).map (fun p => p.1 ++ [p.2])

/-- The `add_sensitive_feature` branch of `generate_shape_graph`, with the
random draws (`sensitive` for `torch.randint`, `shuffleInd` for
`torch.randperm`) passed in explicitly. -/
def addSensitiveAndShuffle (x : List (List Int)) (sensitive fit : List Int)
    (shuffleInd : List Nat) : SensShuffleResult :=
  let x1 := appendSensitive x sensitive
  let fit1 := fit ++ [0]
  { x := x1.map (fun row => scatterAssign shuffleInd row row)
    feature_imp_true := scatterAssign shuffleInd fit1 fit1
    sensitive_feature := shuffleInd.getD (shuffleInd.length - 1) 0 }

/-- C5: one permutation is applied consistently to the feature columns and
the importance weights: gathering the shuffled importance vector (resp. each
shuffled feature row) back through the permutation reproduces the
pre-shuffle vector (resp. row, with the sensitive column appended) exactly,
the stored `sensitive_feature` is the post-shuffle position of the appended
column, and reading the shuffled rows at that position recovers the
sensitive entries. -/
theorem c5_shuffle_roundtrip (x : List (List Int)) (sensitive fit : List Int)
    (σ : List Nat) (d : Nat)
    (hσ : σ.Perm (List.range (d + 1)))
    (hfit : fit.length = d)
    (hx : ∀ row ∈ x, row.length = d) :
    ((List.range (d + 1)).map
        (fun j => (addSensitiveAndShuffle x sensitive fit σ).feature_imp_true.getD (σ.getD j 0) 0)
      = fit ++ [0]) ∧
    (∀ r, r < (appendSensitive x sensitive).length →
      (List.range (d + 1)).map
          (fun j => ((addSensitiveAndShuffle x sensitive fit σ).x.getD r []).getD (σ.getD j 0) 0)
        = (appendSensitive x sensitive).getD r []) ∧
    ((addSensitiveAndShuffle x sensitive fit σ).sensitive_feature = σ.getD d 0) ∧
    (∀ r, r < (appendSensitive x sensitive).length →
      ((addSensitiveAndShuffle x sensitive fit σ).x.getD r []).getD
          (addSensitiveAndShuffle x sensitive fit σ).sensitive_feature 0
        = ((appendSensitive x sensitive).getD r []).getD d 0) := by
  have hσlen : σ.length = d + 1 := by
    simpa using hσ.length_eq
  have hσnd : σ.Nodup := hσ.symm.nodup (List.nodup_range (d + 1))
  have hσlt : ∀ j, j < d + 1 → σ.getD j 0 < d + 1 := by
    intro j hj
    have hjσ : j < σ.length := by omega
    rw [List.getD_eq_getElem _ _ hjσ]
    exact List.mem_range.mp (hσ.mem_iff.mp (List.getElem_mem hjσ))
  have hrowlen : ∀ row ∈ appendSensitive x sensitive, row.length = d + 1 := by
    intro row hrow
    rcases List.mem_map.mp hrow with ⟨p, hp, rfl⟩
    have hp1 : p.1 ∈ x := (List.of_mem_zip hp).1
    simp [hx p.1 hp1]
  have hrecover : ∀ v : List Int, v.length = d + 1 →
      (List.range (d + 1)).map (fun j => (scatterAssign σ v v).getD (σ.getD j 0) 0) = v := by
    intro v hv
    have hlen2 : σ.length = v.length := by omega
    apply List.ext_getElem
    · simp [hv]
    · intro j h1 h2
      have hj : j < d + 1 := by simpa using h1
      have hblt : σ.getD j 0 < v.length := by rw [hv]; exact hσlt j hj
      rw [List.getElem_map, List.getElem_range,
        scatterAssign_getD σ v v 0 hσnd hlen2 j (by omega) hblt,
        List.getD_eq_getElem _ _ h2]
  have hsf : (addSensitiveAndShuffle x sensitive fit σ).sensitive_feature = σ.getD d 0 := by
    unfold addSensitiveAndShuffle
    simp [hσlen]
  have hrow : ∀ r, r < (appendSensitive x sensitive).length →
      (addSensitiveAndShuffle x sensitive fit σ).x.getD r []
        = scatterAssign σ ((appendSensitive x sensitive).getD r [])
            ((appendSensitive x sensitive).getD r []) := by
    intro r hr
    unfold addSensitiveAndShuffle
    simp only []
    rw [List.getD_eq_getElem _ _ (by simpa using hr), List.getElem_map,
      List.getD_eq_getElem _ _ hr]
  refine ⟨?_, ?_, hsf, ?_⟩
  · have h : (addSensitiveAndShuffle x sensitive fit σ).feature_imp_true
        = scatterAssign σ (fit ++ [0]) (fit ++ [0]) := rfl
    rw [h]
    exact hrecover (fit ++ [0]) (by simp [hfit])
  · intro r hr
    have hlen : ((appendSensitive x sensitive).getD r []).length = d + 1 :=
      hrowlen _ (by rw [List.getD_eq_getElem _ _ hr]; exact List.getElem_mem hr)
    rw [hrow r hr]
    exact hrecover _ hlen
  · intro r hr
    have hlen : ((appendSensitive x sensitive).getD r []).length = d + 1 :=
      hrowlen _ (by rw [List.getD_eq_getElem _ _ hr]; exact List.getElem_mem hr)
    rw [hrow r hr, hsf]
    exact scatterAssign_getD σ _ _ 0 hσnd (by omega) d (by omega)
      (by rw [hlen]; exact hσlt d (by omega))

/-- Witness for C5: two feature rows `[1, 2]` and `[3, 4]`, sensitive column
`[9, 8]`, importance weights `[7, 6]` and permutation `[2, 0, 1]`. -/
theorem c5_shuffle_roundtrip_witness :
    ((List.range (2 + 1)).map
        (fun j => (addSensitiveAndShuffle [[1, 2], [3, 4]] [9, 8] [7, 6]
          [2, 0, 1]).feature_imp_true.getD ([2, 0, 1].getD j 0) 0)
      = [7, 6] ++ [0]) ∧
    (∀ r, r < (appendSensitive [[1, 2], [3, 4]] [9, 8]).length →
      (List.range (2 + 1)).map
          (fun j => ((addSensitiveAndShuffle [[1, 2], [3, 4]] [9, 8] [7, 6]
            [2, 0, 1]).x.getD r []).getD ([2, 0, 1].getD j 0) 0)
        = (appendSensitive [[1, 2], [3, 4]] [9, 8]).getD r []) ∧
    ((addSensitiveAndShuffle [[1, 2], [3, 4]] [9, 8] [7, 6] [2, 0, 1]).sensitive_feature
      = [2, 0, 1].getD 2 0) ∧
    (∀ r, r < (appendSensitive [[1, 2], [3, 4]] [9, 8]).length →
      ((addSensitiveAndShuffle [[1, 2], [3, 4]] [9, 8] [7, 6] [2, 0, 1]).x.getD r []).getD
          (addSensitiveAndShuffle [[1, 2], [3, 4]] [9, 8] [7, 6] [2, 0, 1]).sensitive_feature 0
        = ((appendSensitive [[1, 2], [3, 4]] [9, 8]).getD r []).getD 2 0) :=
  c5_shuffle_roundtrip [[1, 2], [3, 4]] [9, 8] [7, 6] [2, 0, 1] 2
    (by decide) (by decide) (by decide)

/-! ## Explainers (`random.py`, `gnn_explainer.py`) -/

/-- A Python exception as surfaced by the explainers: `NotImplementedError`,
a generic `Exception(msg)`, or a `NameError` for an unbound name. -/
inductive PyError where
  | notImplementedError
  | exception (msg : String)
  | nameError (n : String)
  deriving DecidableEq

/-- The explanation dict `{k: None for k in EXP_TYPES}`.  `EXP_TYPES`
(`graphxai.utils.constants`, not part of the provided sources) is modelled
from the spec's data model: one entry each for feature, node and edge
importance. -/
structure ExpDict where
  feature_imp : Option (List Int)
  node_imp : Option (List Int)
  edge_imp : Option (List Int)
  deriving DecidableEq

/-- `torch.randn(shape)` for a one-dimensional shape, with the values of the
global torch generator supplied by `g`. -/
def randn (g : Nat → Int) (n : Nat) : List Int :=
  (List.range n).map g

/-- `RandomExplainer` state: `self.L` (the model-layer count set by
`_BaseExplainer`, used as the default `num_hops`). -/
structure RandomExplainer where
  L : Nat

/-- `RandomExplainer.get_explanation_node(node_idx, x, edge_index, num_hops)`:
computes `khop_info = k_hop_subgraph(node_idx, num_hops, edge_index)`, fills
`feature_imp` with `torch.randn(x[0, :].shape)` and `edge_imp` with
`torch.randn(edge_index[0, :].shape)` (the FULL edge count, not the k-hop
one), and leaves `node_imp` at its `None` initialisation.  `gf`/`ge` supply
the two successive `randn` draws. -/
def RandomExplainer.get_explanation_node (R : RandomExplainer) (gf ge : Nat → Int)
    (nodeIdx : Nat) (x : List (List Int)) (edgeIndex : List (Nat × Nat))
    (numHops : Option Nat) : ExpDict × KhopInfo :=
  let nh := match numHops with
    | none => R.L
    | some k => k
  let khopInfo := kHopSubgraph nodeIdx nh edgeIndex
  ({ feature_imp := some (randn gf (x.headD []).length)
     node_imp := none
     edge_imp := some (randn ge edgeIndex.length) },
   khopInfo)

/-- `RandomExplainer.get_explanation_link(self)`: unconditionally
`raise NotImplementedError()`. -/
def RandomExplainer.get_explanation_link (_R : RandomExplainer) :
    Except PyError (ExpDict × KhopInfo) :=
  .error .notImplementedError

/-- `GNNExplainer` state: `self.L` from `_BaseExplainer` (the `coeff`
dictionary is never reached by the claims below). -/
structure GNNExplainer where
  L : Nat

/-- `GNNExplainer.get_explanation_graph(edge_index, x, label, ...)`:
unconditionally `raise Exception(...)`. -/
def GNNExplainer.get_explanation_graph (_E : GNNExplainer)
    (_edgeIndex : List (Nat × Nat)) (_x : List (List Int)) (_label : List Nat)
    (_explainFeature : Bool) : Except PyError ExpDict :=
  .error (.exception "GNNExplainer does not support graph-level explanation.")

/-- `GNNExplainer.get_explanation_link(self)`: unconditionally
`raise NotImplementedError()`. -/
def GNNExplainer.get_explanation_link (_E : GNNExplainer) :
    Except PyError ExpDict :=
  .error .notImplementedError

/-- The local names bound in `GNNExplainer.get_explanation_node` by the time
control reaches the line `if explain_feature:`: the parameters (the feature
flag among them is named `get_feature_mask`) and the locals assigned before
that line.  No binding for `explain_feature` exists there, nor at module
level. -/
def gnnExplainerNodeScope : List String :=
  ["self", "node_idx", "edge_index", "x", "label", "num_hops", "get_feature_mask",
   "forward_kwargs", "exp", "khop_info", "subset", "sub_edge_index", "mapping",
   "sub_x", "num_epochs", "loss_fn", "train"]

/-- Python name resolution: evaluating an identifier that is bound nowhere in
scope raises `NameError`. -/
def resolveName (scope : List String) (n : String) : Except PyError Unit :=
  if n ∈ scope then .ok () else .error (.nameError n)

/-- `GNNExplainer.get_explanation_node(...)` up to its control-flow skeleton:
after the label/num-hops defaults, the k-hop extraction and the mask setup it
evaluates `if explain_feature:`, an unbound name (the parameter is
`get_feature_mask`), so the tail of the method is unreachable. -/
def GNNExplainer.get_explanation_node (E : GNNExplainer) (nodeIdx : Nat)
    (edgeIndex : List (Nat × Nat)) (_x : List (List Int))
    (numHops : Option Nat) (_getFeatureMask : Bool) :
    Except PyError (ExpDict × KhopInfo) := do
  let nh := match numHops with
    | none => E.L
    | some k => k
  let khopInfo := kHopSubgraph nodeIdx nh edgeIndex
  _ ← resolveName gnnExplainerNodeScope "explain_feature"
  return ({ feature_imp := none, node_imp := none, edge_imp := none }, khopInfo)

/-- C2 counterexample: on the graph with symmetric edges
`(0,1), (1,0), (2,3), (3,2)` and query node 0 with one hop, the k-hop
subgraph has 2 edges but `edge_imp` has 4 entries (one per edge of the full
`edge_index`), so the claimed `len(edge_imp) == k-hop edge count` fails. -/
theorem c2_random_explainer_counterexample :
    (((RandomExplainer.get_explanation_node ⟨2⟩ (fun _ => 0) (fun _ => 0) 0
        [[1], [1], [1], [1]] [(0, 1), (1, 0), (2, 3), (3, 2)] (some 1)).1.edge_imp).getD
      []).length
      ≠ ((RandomExplainer.get_explanation_node ⟨2⟩ (fun _ => 0) (fun _ => 0) 0
        [[1], [1], [1], [1]] [(0, 1), (1, 0), (2, 3), (3, 2)] (some 1)).2.subEdgeIndex).length := by
  decide

/-- C2 as amended: `feature_imp` has one entry per feature dimension of `x`,
while `edge_imp` has one entry per edge of the full `edge_index` passed in
(not per edge of the k-hop subgraph). -/
theorem c2_random_explainer_shapes (R : RandomExplainer) (gf ge : Nat → Int)
    (nodeIdx : Nat) (x : List (List Int)) (edgeIndex : List (Nat × Nat))
    (numHops : Option Nat) (d : Nat) (hd : (x.headD []).length = d) :
    (((R.get_explanation_node gf ge nodeIdx x edgeIndex numHops).1.feature_imp).getD
        []).length = d ∧
    (((R.get_explanation_node gf ge nodeIdx x edgeIndex numHops).1.edge_imp).getD
        []).length = edgeIndex.length := by
  unfold RandomExplainer.get_explanation_node
  simp only [List.headD_eq_head?_getD] at hd
  simp [randn, hd]

/-- Witness for C2 (amended) at a concrete input. -/
theorem c2_random_explainer_shapes_witness :
    (((RandomExplainer.get_explanation_node ⟨2⟩ (fun _ => 0) (fun _ => 0) 0
        [[1, 5], [2, 6]] [(0, 1), (1, 0)] none).1.feature_imp).getD []).length = 2 ∧
    (((RandomExplainer.get_explanation_node ⟨2⟩ (fun _ => 0) (fun _ => 0) 0
        [[1, 5], [2, 6]] [(0, 1), (1, 0)] none).1.edge_imp).getD []).length
      = [(0, 1), (1, 0)].length :=
  c2_random_explainer_shapes ⟨2⟩ (fun _ => 0) (fun _ => 0) 0
    [[1, 5], [2, 6]] [(0, 1), (1, 0)] none 2 (by decide)

/-- C10: whatever the input, the dict returned by
`RandomExplainer.get_explanation_node` still has `node_imp = None`: only
`feature_imp` and `edge_imp` are ever assigned. -/
theorem c10_random_node_imp_none (R : RandomExplainer) (gf ge : Nat → Int)
    (nodeIdx : Nat) (x : List (List Int)) (edgeIndex : List (Nat × Nat))
    (numHops : Option Nat) :
    (R.get_explanation_node gf ge nodeIdx x edgeIndex numHops).1.node_imp = none :=
  rfl

/-- C4: unsupported granularities fail with an explicit raised error:
`RandomExplainer.get_explanation_link` and `GNNExplainer.get_explanation_link`
raise `NotImplementedError`, and `GNNExplainer.get_explanation_graph` raises
an `Exception` — none of them returns a result. -/
theorem c4_unsupported_granularity (R : RandomExplainer) (E : GNNExplainer)
    (edgeIndex : List (Nat × Nat)) (x : List (List Int)) (label : List Nat)
    (explainFeature : Bool) :
    R.get_explanation_link = .error PyError.notImplementedError ∧
    E.get_explanation_graph edgeIndex x label explainFeature
      = .error (PyError.exception "GNNExplainer does not support graph-level explanation.") ∧
    E.get_explanation_link = .error PyError.notImplementedError :=
  ⟨rfl, rfl, rfl⟩

/-- C9: every call of `GNNExplainer.get_explanation_node` fails with the
`NameError` for the unbound identifier `explain_feature` — no input ever
produces an explanation. -/
theorem c9_gnn_explainer_name_error (E : GNNExplainer) (nodeIdx : Nat)
    (edgeIndex : List (Nat × Nat)) (x : List (List Int)) (numHops : Option Nat)
    (getFeatureMask : Bool) :
    E.get_explanation_node nodeIdx edgeIndex x numHops getFeatureMask
      = .error (PyError.nameError "explain_feature") := by
  unfold GNNExplainer.get_explanation_node
  have h : resolveName gnnExplainerNodeScope "explain_feature"
      = .error (.nameError "explain_feature") := rfl
  cases numHops <;> simp [h, Bind.bind, Except.bind]

/-! ## The verified-rebuild loop (`ShapeGraph.__init__`, claim C3)

With `verify` enabled, `__init__` runs
`for i in range(self.max_tries_verification): build; if verify_motifs(...): break`
with a `for`-`else` clause raising
`RuntimeError(f'Could not build a valid graph in ... attempts. ...')`.
`build_bound_graph` and `verify_motifs` are not among the provided sources,
so they stay abstract: `build i` is the host graph produced on attempt `i`
and `verify` is the motif check.  The `RuntimeError` is modelled as an
`Except` error carrying the retry count that its message interpolates. -/

/-- The `for`/`break` part: try attempts `s, s + 1, …` while `fuel` lasts,
returning the first graph that verifies. -/
def firstVerified (build : Nat → HostGraph) (verify : HostGraph → Bool) :
    Nat → Nat → Option HostGraph
  | _, 0 => none
  | s, fuel + 1 =>
    if verify (build s) then some (build s)
    else firstVerified build verify (s + 1) fuel

/-- The whole verified-rebuild loop of `__init__`: break with the first
verified graph, or hit the `for`-`else` and raise after `maxTries` failed
attempts. -/
def buildVerifiedGraph (build : Nat → HostGraph) (verify : HostGraph → Bool)
    (maxTries : Nat) : Except Nat HostGraph :=
  match firstVerified build verify 0 maxTries with
  | some G => .ok G
  | none => .error maxTries

lemma firstVerified_eq_none_iff (build : Nat → HostGraph) (verify : HostGraph → Bool) :
    ∀ (fuel s : Nat),
      firstVerified build verify s fuel = none ↔
        ∀ i, i < fuel → verify (build (s + i)) = false
  | 0, s => by simp [firstVerified]
  | fuel + 1, s => by
    unfold firstVerified
    by_cases h : verify (build s)
    · simp only [if_pos h]
      constructor
      · intro hc; exact absurd hc (by simp)
      · intro hall
        have := hall 0 (Nat.succ_pos fuel)
        rw [Nat.add_zero] at this
        rw [this] at h
        exact absurd h (by simp)
    · rw [if_neg h]
      rw [firstVerified_eq_none_iff build verify fuel (s + 1)]
      constructor
      · intro hall i hi
        cases i with
        | zero => simpa using (Bool.of_not_eq_true h)
        | succ i =>
          have := hall i (by omega)
          simpa [Nat.add_comm, Nat.add_left_comm] using this
      · intro hall i hi
        have := hall (i + 1) (by omega)
        simpa [Nat.add_comm, Nat.add_left_comm] using this

lemma firstVerified_eq_some (build : Nat → HostGraph) (verify : HostGraph → Bool) :
    ∀ (fuel s i : Nat), i < fuel → verify (build (s + i)) = true →
      (∀ j, j < i → verify (build (s + j)) = false) →
      firstVerified build verify s fuel = some (build (s + i))
  | 0, _, i, hi, _, _ => absurd hi (Nat.not_lt_zero i)
  | fuel + 1, s, i, hi, hv, hmin => by
    unfold firstVerified
    cases i with
    | zero =>
      rw [Nat.add_zero] at hv
      rw [if_pos hv, Nat.add_zero]
    | succ i =>
      have h0 : verify (build s) = false := by
        have := hmin 0 (Nat.succ_pos i)
        rwa [Nat.add_zero] at this
      rw [if_neg (by simp [h0])]
      have hrec := firstVerified_eq_some build verify fuel (s + 1) i (by omega)
        (by rw [show s + 1 + i = s + (i + 1) by omega]; exact hv)
        (fun j hj => by
          rw [show s + 1 + j = s + (j + 1) by omega]
          exact hmin (j + 1) (by omega))
      rw [hrec, show s + 1 + i = s + (i + 1) by omega]

/-- C3: with verification enabled, construction succeeds with the graph of
the first attempt that passes `verify_motifs` (breaking out of the retry
loop), and the fatal construction error — carrying the retry count — is
raised exactly when all `max_tries_verification` attempts fail. -/
theorem c3_verification_retry_loop (build : Nat → HostGraph)
    (verify : HostGraph → Bool) (maxTries : Nat) :
    (buildVerifiedGraph build verify maxTries = .error maxTries ↔
      ∀ i, i < maxTries → verify (build i) = false) ∧
    (∀ i, i < maxTries → verify (build i) = true →
      (∀ j, j < i → verify (build j) = false) →
      buildVerifiedGraph build verify maxTries = .ok (build i)) := by
  constructor
  · unfold buildVerifiedGraph
    rcases hfv : firstVerified build verify 0 maxTries with _ | G
    · simp only [true_iff]
      have := (firstVerified_eq_none_iff build verify maxTries 0).mp hfv
      intro i hi
      simpa using this i hi
    · simp only [reduceCtorEq, false_iff]
      intro hall
      have : firstVerified build verify 0 maxTries = none := by
        rw [firstVerified_eq_none_iff]
        intro i hi
        simpa using hall i hi
      rw [this] at hfv
      exact absurd hfv (by simp)
  · intro i hi hv hmin
    unfold buildVerifiedGraph
    have h := firstVerified_eq_some build verify maxTries 0 i hi (by simpa using hv)
      (fun j hj => by simpa using hmin j hj)
    rw [h, Nat.zero_add]

/-- Witness for C3: attempts produce graphs of growing size, verification
accepts exactly size 2, the loop succeeds at attempt 2 of 5. -/
theorem c3_verification_retry_loop_witness :
    buildVerifiedGraph (fun i => { numNodes := i, edges := [], shape := fun _ => 0 })
      (fun G => G.numNodes == 2) 5
      = .ok { numNodes := 2, edges := [], shape := fun _ => 0 } :=
  (c3_verification_retry_loop
      (fun i => { numNodes := i, edges := [], shape := fun _ => 0 })
      (fun G => G.numNodes == 2) 5).2
    2 (by decide) (by decide) (by decide)

/-! ## Train/test/valid split masks (`ShapeGraph.__init__`, claim C7)

The sample sizes are `int(self.num_nodes * 0.7)`, `int(... * 0.25)` and
`int(... * 0.05)`: Python multiplies the exact double `float(n)` (exact for
`n < 2^53`) by the stored double constant and truncates, so the computed size
is `⌊fl(n · fl(c))⌋` with `fl` the IEEE-754 round-to-nearest-ties-to-even
double rounding — NOT always the exact floor `⌊c · n⌋` (for `c = 0.7` they
differ at `n = 90, 170, 180, 330, …` because `fl(0.7) < 0.7`).  Every stored
constant is the dyadic rational `num / 2^E` with `num ∈ [2^52, 2^53)` given
below, and every intermediate here stays far from overflow and subnormal
territory, so rounding the product to 53 significant bits is the whole
semantics. -/

/-- The number of low bits dropped when rounding `a` to 53 significant bits:
the least `d` with `a / 2^d < 2^53`, computed by iterated halving (the fuel
128 covers every `a < 2^181`, far beyond the `n < 2^53` domain on which
`float(n)` is exact). -/
def excess (fuel a : Nat) : Nat :=
  match fuel with
  | 0 => 0
  | fuel + 1 => if a < 2 ^ 53 then 0 else excess fuel (a / 2) + 1

/-- `⌊fl(a / 2^E)⌋`: round the dyadic rational `a / 2^E` to the nearest
IEEE-754 double (53 significant bits, ties to even) and truncate — the value
of Python's `int(n * c)` when `a / 2^E` is the exact product `n · fl(c)`. -/
def floorFloat (a E : Nat) : Nat :=
  let d := excess 128 a
  if d = 0 then a / 2 ^ E
  else
    let q := a / 2 ^ d
    let r := a % 2 ^ d
    let h := 2 ^ (d - 1)
    let q' := if r < h then q
      else if h < r then q + 1
      else if q % 2 = 0 then q else q + 1
    q' * 2 ^ d / 2 ^ E

/-- `int(self.num_nodes * 0.7)`: `fl(0.7) = 6305039478318694 / 2^53`
(slightly below 7/10, so the result drops below `⌊7n/10⌋` at
`n = 90, 170, 180, …`). -/
def trainSize (n : Nat) : Nat := floorFloat (n * 6305039478318694) 53

/-- `int(self.num_nodes * 0.25)`: `fl(0.25) = 4503599627370496 / 2^54` is
exactly 1/4, so this agrees with `⌊n/4⌋` everywhere below `2^53`. -/
def testSize (n : Nat) : Nat := floorFloat (n * 4503599627370496) 54

/-- `int(self.num_nodes * 0.05)`: `fl(0.05) = 7205759403792794 / 2^57`
(slightly above 1/20). -/
def validSize (n : Nat) : Nat := floorFloat (n * 7205759403792794) 57

/-- `torch.tensor([s in sampled for s in range_set], dtype=torch.bool)`. -/
def maskOf (n : Nat) (sampled : List Nat) : List Bool :=
  (List.range n).map (fun s => decide (s ∈ sampled))

/-- The three fixed boolean split masks stored on the dataset. -/
structure SplitMasks where
  fixed_train_mask : List Bool
  fixed_test_mask : List Bool
  fixed_valid_mask : List Bool
  deriving DecidableEq

/-- The split-mask block at the end of `ShapeGraph.__init__`, with the three
`random.sample(range_set, k)` draws passed in explicitly (the shared `random`
generator they come from is reseeded to 1234 just before). -/
def makeSplitMasks (n : Nat) (trainNodes testNodes validNodes : List Nat) : SplitMasks :=
  { fixed_train_mask := maskOf n trainNodes
    fixed_test_mask := maskOf n testNodes
    fixed_valid_mask := maskOf n validNodes }

/-- The contract of `random.sample(range(n), k)`: `k` distinct members of
`range(n)`, in any order. -/
def SampleSpec (n k : Nat) (l : List Nat) : Prop :=
  l.Nodup ∧ l.length = k ∧ ∀ x ∈ l, x < n

instance (n k : Nat) (l : List Nat) : Decidable (SampleSpec n k l) := by
  unfold SampleSpec
  infer_instance

/-- A membership mask over `range n` built from a duplicate-free sample of
`range n` has exactly `l.length` true entries. -/
lemma count_maskOf (n : Nat) (l : List Nat) (hnd : l.Nodup) (hlt : ∀ x ∈ l, x < n) :
    (maskOf n l).count true = l.length := by
  rw [maskOf, List.count_eq_countP, List.countP_map]
  have h1 : ((fun b => b == true) ∘ fun s : Nat => decide (s ∈ l))
      = fun s => decide (s ∈ l) := by
    funext s
    simp
  rw [h1, List.countP_eq_length_filter]
  have hperm : ((List.range n).filter (fun s => decide (s ∈ l))).Perm l := by
    rw [List.perm_ext_iff_of_nodup (List.Nodup.filter _ (List.nodup_range n)) hnd]
    intro a
    rw [List.mem_filter]
    simp only [List.mem_range, decide_eq_true_eq]
    constructor
    · rintro ⟨-, h⟩
      exact h
    · intro h
      exact ⟨hlt a h, h⟩
  exact hperm.length_eq

/-- C7 counterexample: at `n = 90` the program computes the train sample size
`int(90 * 0.7) = 62` — the double product `90 · fl(0.7)` rounds below 63 and
truncation keeps it there — so the constructed train mask has exactly 62 true
entries while the claimed count `⌊0.7 · 90⌋` is 63. -/
theorem c7_float_truncation_counterexample :
    SampleSpec 90 (trainSize 90) (List.range 62) ∧
    (makeSplitMasks 90 (List.range 62) [] []).fixed_train_mask.count true = 62 ∧
    trainSize 90 = 62 ∧
    7 * 90 / 10 = 63 := by
  decide

/-- C7 as amended: each fixed mask has exactly `int(n*0.7)`, `int(n*0.25)`,
`int(n*0.05)` true entries — the sizes the code computes in double
arithmetic, which can fall below the exact floors (`trainSize 90 = 62`,
not 63) — and, since the three samples are drawn independently rather than
partitioned, valid sample outcomes exist whose train and test masks overlap,
so disjointness is not guaranteed. -/
theorem c7_split_mask_sizes (n : Nat) (tr te va : List Nat)
    (htr : SampleSpec n (trainSize n) tr)
    (hte : SampleSpec n (testSize n) te)
    (hva : SampleSpec n (validSize n) va) :
    ((makeSplitMasks n tr te va).fixed_train_mask.count true = trainSize n ∧
      (makeSplitMasks n tr te va).fixed_test_mask.count true = testSize n ∧
      (makeSplitMasks n tr te va).fixed_valid_mask.count true = validSize n) ∧
    (∃ m tr' te' va' i, SampleSpec m (trainSize m) tr' ∧ SampleSpec m (testSize m) te' ∧
      SampleSpec m (validSize m) va' ∧
      (makeSplitMasks m tr' te' va').fixed_train_mask.getD i false = true ∧
      (makeSplitMasks m tr' te' va').fixed_test_mask.getD i false = true) := by
  refine ⟨⟨?_, ?_, ?_⟩, ?_⟩
  · exact (count_maskOf n tr htr.1 htr.2.2).trans htr.2.1
  · exact (count_maskOf n te hte.1 hte.2.2).trans hte.2.1
  · exact (count_maskOf n va hva.1 hva.2.2).trans hva.2.1
  · exact ⟨4, [0, 1], [0], [], 0, by decide, by decide, by decide, by decide, by decide⟩

/-- Witness for C7 at `n = 4` (`⌊0.7·4⌋ = 2`, `⌊0.25·4⌋ = 1`,
`⌊0.05·4⌋ = 0`). -/
theorem c7_split_mask_sizes_witness :
    ((makeSplitMasks 4 [0, 1] [2] []).fixed_train_mask.count true = trainSize 4 ∧
      (makeSplitMasks 4 [0, 1] [2] []).fixed_test_mask.count true = testSize 4 ∧
      (makeSplitMasks 4 [0, 1] [2] []).fixed_valid_mask.count true = validSize 4) ∧
    (∃ m tr' te' va' i, SampleSpec m (trainSize m) tr' ∧ SampleSpec m (testSize m) te' ∧
      SampleSpec m (validSize m) va' ∧
      (makeSplitMasks m tr' te' va').fixed_train_mask.getD i false = true ∧
      (makeSplitMasks m tr' te' va').fixed_test_mask.getD i false = true) :=
  c7_split_mask_sizes 4 [0, 1] [2] [] (by decide) (by decide) (by decide)

/-! ## Fixed-seed reproducibility (claim C6) -/

/-- The draws `generate_shape_graph` takes from the *global* torch RNG:
`sensitive = torch.randint(0, 2, (n,))` and
`shuffle_ind = torch.randperm(x.shape[1])`.  Neither call receives
`self.seed`. -/
structure GlobalTorchState where
  sensitiveDraw : List Int
  permDraw : List Nat
  deriving DecidableEq

/-- The feature stage of `generate_shape_graph`.  `baseX` and `fit` stand
for the rows and importance weights produced by
`gaussian_lv_generator(G, y, seed=self.seed, ...)` (not among the provided
sources; per the spec §4.4 it is a deterministic function of the graph, the
labels and the seed).  With `add_sensitive_feature` enabled (the default)
the stage additionally consumes the two global-RNG draws. -/
def generateFeatures (baseX : List (List Int)) (fit : List Int)
    (addSensitive : Bool) (g : GlobalTorchState) :
    List (List Int) × List Int × Option Nat :=
  if addSensitive then
    let r := addSensitiveAndShuffle baseX g.sensitiveDraw fit g.permDraw
    (r.x, r.feature_imp_true, some r.sensitive_feature)
  else
    (baseX, fit, none)

/-- C6 counterexample: with `add_sensitive_feature` enabled (its default),
the same seed-derived features and two different global torch RNG states
(differing only in the sensitive draw) produce different feature matrices —
the result is NOT determined by the constructor seed, and global random
state does influence it. -/
theorem c6_global_state_counterexample :
    generateFeatures [[1, 2]] [7, 6] true
        { sensitiveDraw := [0], permDraw := [2, 0, 1] }
      ≠ generateFeatures [[1, 2]] [7, 6] true
        { sensitiveDraw := [1], permDraw := [2, 0, 1] } := by
  decide

/-- C6 as amended: the feature stage is a pure function of the seed-derived
generator output and the global torch draws.  With `add_sensitive_feature`
disabled it never reads the global state, so fixed-seed constructions
coincide unconditionally; with it enabled, reproducing the dataset requires
fixing the global torch RNG state in addition to the seed. -/
theorem c6_seed_determinism (baseX : List (List Int)) (fit : List Int)
    (g1 g2 : GlobalTorchState) :
    (generateFeatures baseX fit false g1 = generateFeatures baseX fit false g2) ∧
    (g1 = g2 → ∀ addSensitive,
      generateFeatures baseX fit addSensitive g1
        = generateFeatures baseX fit addSensitive g2) := by
  refine ⟨rfl, ?_⟩
  rintro rfl _
  rfl

/-- Witness for C6 (amended) at concrete inputs. -/
theorem c6_seed_determinism_witness :
    generateFeatures [[1]] [3] true { sensitiveDraw := [0], permDraw := [1, 0] }
      = generateFeatures [[1]] [3] true { sensitiveDraw := [0], permDraw := [1, 0] } :=
  (c6_seed_determinism [[1]] [3]
      { sensitiveDraw := [0], permDraw := [1, 0] }
      { sensitiveDraw := [0], permDraw := [1, 0] }).2 rfl true

end GXAI
